import Mathlib

/-!
# Verification of the Scout program-discovery and ranking core

A shallow embedding of `src/result/program.rs` (the `ProgramResult` type,
its discovery pass `find_all`, the helpers `format_exec` and
`choose_category`, the ranking function `get_ranking`, and the activation
path).  Rust strings are modelled as Lean `String`/`List Char`; character
classification (`to_lowercase`, `to_uppercase`, `is_whitespace`) is modelled
per-character with Lean's ASCII `Char` operations, which agree with Rust on
the ASCII inputs all claims are about.  Fallible operations return `Option`;
a Rust panic (`unwrap` on `None`/`Err`, index out of bounds) is modelled as
the `none` outcome of the surrounding computation.
-/

namespace Scout

/-! ## Character-list string helpers

Models of the Rust standard-library string operations the source uses,
written over `List Char` so that every definition is structural and
evaluates inside the kernel.
-/

/-- Model of Rust `str::split(sep)` for a one-character separator: the list
of pieces between occurrences of `sep`.  Splitting the empty string yields
one empty piece, exactly as in Rust. -/
def splitOnChar (sep : Char) : List Char → List (List Char)
  | [] => [[]]
  | c :: cs =>
    let r := splitOnChar sep cs
    if c == sep then [] :: r
    else
      match r with
      | [] => [[c]]
      | w :: ws => (c :: w) :: ws

/-- Whether `pat` is an initial segment of `s` (helper for `strReplace`). -/
def startsWithChars : List Char → List Char → Bool
  | [], _ => true
  | _ :: _, [] => false
  | p :: ps, c :: cs => p == c && startsWithChars ps cs

/-- Worker for `strReplace`.  `skip` counts characters of a previously
matched occurrence that still have to be consumed without looking for a new
match, so that matches are non-overlapping and found left to right, exactly
as in Rust `str::replace`. -/
def replaceGo (pat repl : List Char) : List Char → Nat → List Char
  | [], _ => []
  | _ :: cs, skip + 1 => replaceGo pat repl cs skip
  | c :: cs, 0 =>
    if pat ≠ [] ∧ startsWithChars pat (c :: cs) then
      repl ++ replaceGo pat repl cs (pat.length - 1)
    else
      c :: replaceGo pat repl cs 0

/-- Model of Rust `str::replace(pat, repl)` (all occurrences, left to right,
non-overlapping).  The source only ever uses non-empty patterns. -/
def strReplace (s pat repl : String) : String :=
  String.mk (replaceGo pat.data repl.data s.data 0)

/-! ## CommandSanitizer: `format_exec` (program.rs lines 148-150) -/

/-- Model of `ProgramResult::format_exec` from the source:
`exec.replace("%f", "").replace("%F", "").replace("%D", "~").replace("%u", "").replace("%U", "")`.
Note that `%D` is replaced by `"~"`, not removed. -/
def format_exec (exec : String) : String :=
  strReplace (strReplace (strReplace (strReplace (strReplace
    exec "%f" "") "%F" "") "%D" "~") "%u" "") "%U" ""

/-- The five placeholder substitutions of `format_exec`, in the order the
source applies them, as a data table (used by the amended C3 statement). -/
def placeholderSubs : List (String × String) :=
  [("%f", ""), ("%F", ""), ("%D", "~"), ("%u", ""), ("%U", "")]

/-- The sequential-substitution pipeline described by the amended claim C3:
apply the five placeholder substitutions one after the other. -/
def formatExecSeq (s : String) : String :=
  placeholderSubs.foldl (fun acc p => strReplace acc p.1 p.2) s

/-! ## CategoryClassifier: `choose_category` (program.rs lines 32-43, 157-161) -/

/-- The `EXCLUDED_CATEGORIES` table from the source (program.rs lines 32-43). -/
def EXCLUDED_CATEGORIES : List String :=
  ["APPLICATION", "CONSOLEONLY", "NETWORK", "FILETRANSFER", "TEXTEDITOR",
   "X-XFCE", "GNOME", "XFCE", "GTK", "KDE"]

/-- Model of Rust `str::to_uppercase` on a character list (per-character,
ASCII; agrees with Rust on the ASCII category names involved). -/
def toUpperChars (s : List Char) : List Char := s.map Char.toUpper

/-- Word delimiters dropped by the case converter (convert_case default
boundaries: underscore, hyphen, space). -/
def isWordDelim (c : Char) : Bool := c == '_' || c == '-' || c == ' '

/-- Modelled from the `convert_case` crate (not part of this repository):
split a character list into words at the crate's default boundaries
(delimiters; lower-to-upper, letter-to-digit and digit-to-letter
transitions; the acronym boundary upper-upper-lower).  `acc` holds the
current word reversed. -/
def splitWordsAux : List Char → List Char → List (List Char)
  | [], acc => if acc.isEmpty then [] else [acc.reverse]
  | c :: rest, acc =>
    if isWordDelim c then
      if acc.isEmpty then splitWordsAux rest []
      else acc.reverse :: splitWordsAux rest []
    else
      match acc with
      | [] => splitWordsAux rest [c]
      | p :: _ =>
        if (p.isLower && c.isUpper) || (p.isDigit && c.isAlpha) ||
            (p.isAlpha && c.isDigit) then
          acc.reverse :: splitWordsAux rest [c]
        else if p.isUpper && c.isUpper then
          match rest with
          | n :: _ =>
            if n.isLower then acc.reverse :: splitWordsAux rest [c]
            else splitWordsAux rest (c :: acc)
          | [] => splitWordsAux rest (c :: acc)
        else splitWordsAux rest (c :: acc)

/-- Capitalize one word: first character uppercased, rest lowercased
(the `Title` pattern of `convert_case`). -/
def capitalizeWord : List Char → List Char
  | [] => []
  | c :: cs => c.toUpper :: cs.map Char.toLower

/-- Join words with single spaces (the `Title` delimiter). -/
def joinWordsSpace : List (List Char) → List Char
  | [] => []
  | [w] => w
  | w :: ws => w ++ ' ' :: joinWordsSpace ws

/-- Modelled from the `convert_case` crate: `to_case(Case::Title)`. -/
def toTitleChars (s : List Char) : List Char :=
  joinWordsSpace ((splitWordsAux s []).map capitalizeWord)

/-- Model of `ProgramResult::choose_category` from the source (program.rs
157-161): split on ';', drop tokens whose uppercase form is in
`EXCLUDED_CATEGORIES`, take the first survivor (`"Application"` if the
surviving list is empty), convert to title case, uppercase. -/
def choose_category (list : Option String) : String :=
  let l := (splitOnChar ';' (list.getD "").data).filter
    (fun s => !(EXCLUDED_CATEGORIES.contains (String.mk (toUpperChars s))))
  String.mk (toUpperChars (toTitleChars (((l.get? 0).map String.mk).getD "Application").data))

/-- The category-selection pipeline exactly as claim C9 words it: split on
';', drop excluded tokens, take the first surviving token with default
`"Application"` when none survives, title-case, then uppercase. -/
def chooseCategorySpec (raw : Option String) : String :=
  let tokens := splitOnChar ';' (raw.getD "").data
  let surviving := tokens.filter
    (fun s => !(EXCLUDED_CATEGORIES.contains (String.mk (toUpperChars s))))
  let chosen : String :=
    match surviving with
    | [] => "Application"
    | t :: _ => String.mk t
  String.mk (toUpperChars (toTitleChars chosen.data))

/-! ## Ranker: `get_ranking` (program.rs lines 265-281) -/

/-- One iteration of the `for letter in query.chars()` loop of
`get_ranking`: given the normalized name and the accumulator
`(score, last_letter_ind)`, search the name from the cursor onwards for
`letter`; on a hit at relative offset `p` add `max(10 - p, 0)` (which is
`10 - p` in truncated `Nat` subtraction) and move the cursor past the
match. -/
def rankStep (lname : List Char) (acc : Nat × Nat) (letter : Char) : Nat × Nat :=
  match (lname.drop acc.2).findIdx? (fun c => c == letter) with
  | some p => (acc.1 + (10 - p), acc.2 + p + 1)
  | none => acc

/-- Model of `ProgramResult::get_ranking` from the source (program.rs
265-281), with the candidate name passed explicitly in place of
`self.name`: lowercase the name, drop whitespace, then fold `rankStep` over
the query characters starting from score 0 and cursor 0. -/
def get_ranking (name query : String) : Nat :=
  let lowercase_name := (name.data.map Char.toLower).filter (fun c => !c.isWhitespace)
  (query.data.foldl (rankStep lowercase_name) (0, 0)).1

/-- The reference greedy-subsequence score exactly as claim C1 words it:
for each query character in order, find its first occurrence at or after
the cursor; on a hit at relative offset `p` add `max(10 - p, 0)` (integer
max) and move the cursor to `cursor + p + 1`; on a miss add nothing and
keep the cursor. -/
def specRank (lname : List Char) : Nat → List Char → Nat
  | _, [] => 0
  | cursor, q :: qs =>
    match (lname.drop cursor).findIdx? (fun c => c == q) with
    | some p => (max (10 - (p : Int)) 0).toNat + specRank lname (cursor + p + 1) qs
    | none => specRank lname cursor qs

/-- The reference score of claim C1 on strings: normalize the candidate
name (lowercase, remove whitespace), then run `specRank` from cursor 0. -/
def get_ranking_spec (name query : String) : Nat :=
  specRank ((name.data.map Char.toLower).filter (fun c => !c.isWhitespace)) 0 query.data

/-! ## Data model: desktop entry files and the filesystem

The entry-file parser (`freedesktop_entry_parser`, not part of this
repository) exposes named sections of key/value attributes; it is modelled
as the finished association structure.  Attribute values are arbitrary
strings (the parser yields an empty value for a bare `Key=` line).  Keys
are assumed unique within a section, as the spec's data model states.
-/

/-- A parsed desktop entry file: named sections, each an association list
from attribute name to value. -/
structure DesktopFile where
  sections : List (String × List (String × String))
deriving DecidableEq

/-- Attribute lookup: `parsed.section(sec).attr(key)`.  A missing section
behaves like a section with no attributes, as in the parser crate. -/
def getAttr (secs : List (String × List (String × String))) (sec key : String) :
    Option String :=
  match secs.lookup sec with
  | some attrs => attrs.lookup key
  | none => none

/-- Attribute lookup in the primary `Desktop Entry` section
(`parsed.section("Desktop Entry").attr(key)` in the source). -/
def entryAttr (f : DesktopFile) (key : String) : Option String :=
  getAttr f.sections "Desktop Entry" key

/-- The `Action` struct from the source (program.rs lines 50-54). -/
structure Action where
  name : String
  exec : String
deriving DecidableEq

/-- The data fields of the `ProgramResult` struct (program.rs lines 61-74).
The two GTK widget fields are presentation state and are outside the
embedding. -/
structure ProgramResult where
  name : String
  category : String
  description : String
  icon : Option String
  version : Option String
  exec : String
  actions : Option (List Action)
deriving DecidableEq

/-- The data part of `ProgramResult::new` (program.rs lines 168-261):
stores the given fields verbatim (the `exec` field keeps the RAW command;
`format_exec` is applied only at activation time).  Parameter order follows
the source. -/
def ProgramResult.new (name description category : String) (version : Option String)
    (exec : String) (icon : Option String) (actions : Option (List Action)) :
    ProgramResult :=
  { name := name, category := category, description := description,
    icon := icon, version := version, exec := exec, actions := actions }

/-! ## Discoverer: `find_all` (program.rs lines 82-141) -/

/-- The `show` flag of `find_all` (program.rs line 108): the entry is shown
iff `NoDisplay` and `Hidden` both read `"false"` after defaulting absent
attributes to `"false"`. -/
def showFlag (f : DesktopFile) : Bool :=
  ((entryAttr f "NoDisplay").getD "false" == "false") &&
  ((entryAttr f "Hidden").getD "false" == "false")

/-- The declared action identifiers (program.rs lines 110-111): split the
`Actions` attribute on ';' and drop empty tokens; absent attribute means no
actions. -/
def actionNames (f : DesktopFile) : List String :=
  match entryAttr f "Actions" with
  | some s => ((splitOnChar ';' s.data).filter (fun t => t ≠ [])).map String.mk
  | none => []

/-- The sub-section title for an action identifier:
`["Desktop Action", name].join(" ")` (program.rs line 114). -/
def actionSectionName (nm : String) : String :=
  "Desktop Action" ++ " " ++ nm

/-- Build the action list (program.rs lines 113-119).  The source calls
`.unwrap()` on the sub-section's `Exec` attribute, so a missing action
`Exec` is a panic, modelled as `none`.  The action display name defaults to
`"Unnamed Action"`. -/
def buildActions (f : DesktopFile) : List String → Option (List Action)
  | [] => some []
  | nm :: rest =>
    match getAttr f.sections (actionSectionName nm) "Exec" with
    | none => none
    | some e =>
      match buildActions f rest with
      | none => none
      | some acts =>
        some ({ name := (getAttr f.sections (actionSectionName nm) "Name").getD
                  "Unnamed Action",
                exec := e } :: acts)

/-- The tail of the per-file block (program.rs lines 122-135): skip the file
when the primary section has no `Exec` attribute, and push a result only
when the `show` flag is set. -/
def buildResult (f : DesktopFile) (actions : Option (List Action)) :
    Option ProgramResult :=
  match entryAttr f "Exec" with
  | none => none
  | some exec =>
    if showFlag f then
      some (ProgramResult.new ((entryAttr f "Name").getD "Unnamed Application")
        ((entryAttr f "Comment").getD "")
        (choose_category (entryAttr f "Categories"))
        (entryAttr f "Version") exec (entryAttr f "Icon") actions)
    else none

/-- Processing of one parsed desktop file (program.rs lines 106-135).
Outer `none` models a panic (missing action `Exec`, which the source hits
before the `Exec`/`show` checks); `some none` means the file yields no
result; `some (some r)` means the file yields the result `r`. -/
def processFile (f : DesktopFile) : Option (Option ProgramResult) :=
  let names := actionNames f
  match (if names.length > 0 then (buildActions f names).map some else some none) with
  | none => none
  | some actions => some (buildResult f actions)

/-- A node of the scanned filesystem.  `file` content `none` models an
unreadable or unparsable file (`parse_entry` fails); `dir` children `none`
models an unreadable directory (`read_dir` fails). -/
inductive FsNode where
  | file (name : String) (content : Option DesktopFile)
  | dir (name : String) (children : Option (List FsNode))

/-- Whether a node is a directory (`path.is_dir()`). -/
def FsNode.isDir : FsNode → Bool
  | FsNode.dir _ _ => true
  | FsNode.file _ _ => false

/-- Model of Rust `Path::extension()` on a file name: the part after the
last '.', none when there is no '.' or when the only '.' is the leading one
of a hidden file. -/
def pathExtension (name : String) : Option String :=
  match splitOnChar '.' name.data with
  | [] => none
  | [_] => none
  | [[], _] => none
  | parts => some (String.mk (parts.getLastD []))

/-- One pass of the inner `for entry in dir_iter` loop over the files of a
directory (program.rs lines 95-137), restricted to the file children:
process each child whose name has the `desktop` extension, skipping
unparsable files; `none` propagates a panic.  Directory children only feed
the work-list (see `findAllLoop`) and contribute no results here. -/
def processChildrenFiles : List FsNode → Option (List ProgramResult)
  | [] => some []
  | FsNode.dir _ _ :: rest => processChildrenFiles rest
  | FsNode.file nm content :: rest =>
    if pathExtension nm = some "desktop" then
      match content with
      | none => processChildrenFiles rest
      | some f =>
        match processFile f with
        | none => none
        | some none => processChildrenFiles rest
        | some (some r) => (processChildrenFiles rest).map (fun l => r :: l)
    else processChildrenFiles rest

/-- The work-list loop of `find_all` (program.rs lines 91-138): pop the last
path (the head of the reversed stack used here), list its children (an
unreadable node is skipped whole), push the child directories, and collect
the results of the child files.  `none` propagates a panic. -/
def findAllLoop (stack : List FsNode) (found : List ProgramResult) :
    Option (List ProgramResult) :=
  match stack with
  | [] => some found
  | FsNode.file _ _ :: rest => findAllLoop rest found
  | FsNode.dir _ none :: rest => findAllLoop rest found
  | FsNode.dir _ (some children) :: rest =>
    match processChildrenFiles children with
    | none => none
    | some rs =>
      findAllLoop ((children.filter FsNode.isDir).reverse ++ rest) (found ++ rs)
termination_by (stack.map (fun n => sizeOf n)).sum
decreasing_by
  · simp only [List.map_cons, List.sum_cons, FsNode.file.sizeOf_spec]
    omega
  · simp only [List.map_cons, List.sum_cons, FsNode.dir.sizeOf_spec]
    omega
  · have h1 : ∀ l : List FsNode,
        ((l.filter FsNode.isDir).map (fun n => sizeOf n)).sum ≤
          (l.map (fun n => sizeOf n)).sum := by
      intro l
      induction l with
      | nil => simp
      | cons x xs ih =>
        cases h : FsNode.isDir x with
        | true =>
          simp only [List.filter_cons, h, if_true, List.map_cons, List.sum_cons]
          omega
        | false =>
          simp [List.filter_cons, h]
          omega
    have h2 : ∀ l : List FsNode, (l.map (fun n => sizeOf n)).sum ≤ sizeOf l := by
      intro l
      induction l with
      | nil => simp
      | cons x xs ih =>
        simp only [List.map_cons, List.sum_cons, List.cons.sizeOf_spec]
        omega
    have h3 := h1 children
    have h4 := h2 children
    simp only [List.map_append, List.sum_append, List.map_reverse, List.sum_reverse,
      List.map_cons, List.sum_cons, FsNode.dir.sizeOf_spec, Option.some.sizeOf_spec]
    omega

/-- `ProgramResult::find_all`, with the root directories passed as a
parameter in place of the three hard-coded search paths (program.rs lines
83-87).  The Rust work-list pops from the end of the vector, so the loop
here runs on the reversed root list with the head as the top. -/
def find_all (roots : List FsNode) : Option (List ProgramResult) :=
  findAllLoop roots.reverse []

/-! ## Activation (program.rs lines 287-293)

`shell_words::split` is an external crate; it is modelled from its
published state machine.  The OS `spawn` call is outside the model; what is
observable is whether the code reaches it, and with which program and
argument words, or panics first.
-/

/-- Parser states of `shell_words::split`. -/
inductive SwState where
  | delimiter
  | backslash
  | unquoted
  | unquotedBackslash
  | singleQuoted
  | doubleQuoted
  | doubleQuotedBackslash

/-- Modelled from the `shell_words` crate (not part of this repository):
the character-by-character splitter.  `word` is the word being built,
`words` the completed words; `none` models `Err(ParseError)` (input ends
inside a quoted region). -/
def shellSplitGo : List Char → SwState → String → List String → Option (List String)
  | [], SwState.delimiter, _, words => some words
  | [], SwState.backslash, word, words => some (words ++ [word.push '\\'])
  | [], SwState.unquoted, word, words => some (words ++ [word])
  | [], SwState.unquotedBackslash, word, words => some (words ++ [word.push '\\'])
  | [], SwState.singleQuoted, _, _ => none
  | [], SwState.doubleQuoted, _, _ => none
  | [], SwState.doubleQuotedBackslash, _, _ => none
  | c :: cs, SwState.delimiter, word, words =>
    if c = '\'' then shellSplitGo cs SwState.singleQuoted word words
    else if c = '"' then shellSplitGo cs SwState.doubleQuoted word words
    else if c = '\\' then shellSplitGo cs SwState.backslash word words
    else if c = '\t' ∨ c = ' ' ∨ c = '\n' then shellSplitGo cs SwState.delimiter word words
    else shellSplitGo cs SwState.unquoted (word.push c) words
  | c :: cs, SwState.backslash, word, words =>
    if c = '\n' then shellSplitGo cs SwState.delimiter word words
    else shellSplitGo cs SwState.unquoted (word.push c) words
  | c :: cs, SwState.unquoted, word, words =>
    if c = '\'' then shellSplitGo cs SwState.singleQuoted word words
    else if c = '"' then shellSplitGo cs SwState.doubleQuoted word words
    else if c = '\\' then shellSplitGo cs SwState.unquotedBackslash word words
    else if c = '\t' ∨ c = ' ' ∨ c = '\n' then
      shellSplitGo cs SwState.delimiter "" (words ++ [word])
    else shellSplitGo cs SwState.unquoted (word.push c) words
  | c :: cs, SwState.unquotedBackslash, word, words =>
    if c = '\n' then shellSplitGo cs SwState.unquoted word words
    else shellSplitGo cs SwState.unquoted (word.push c) words
  | c :: cs, SwState.singleQuoted, word, words =>
    if c = '\'' then shellSplitGo cs SwState.unquoted word words
    else shellSplitGo cs SwState.singleQuoted (word.push c) words
  | c :: cs, SwState.doubleQuoted, word, words =>
    if c = '"' then shellSplitGo cs SwState.unquoted word words
    else if c = '\\' then shellSplitGo cs SwState.doubleQuotedBackslash word words
    else shellSplitGo cs SwState.doubleQuoted (word.push c) words
  | c :: cs, SwState.doubleQuotedBackslash, word, words =>
    if c = '\n' then shellSplitGo cs SwState.doubleQuoted word words
    else if c = '$' ∨ c = Char.ofNat 96 ∨ c = '"' ∨ c = '\\' then
      shellSplitGo cs SwState.doubleQuoted (word.push c) words
    else shellSplitGo cs SwState.doubleQuoted ((word.push '\\').push c) words

/-- Modelled from the `shell_words` crate: `split`, starting in the
delimiter state with no words. -/
def shell_words_split (s : String) : Option (List String) :=
  shellSplitGo s.data SwState.delimiter "" []

/-- The observable outcome of an activation request.  `spawned` records the
program and argument words handed to the process spawn; `panicked` models
the source's `.unwrap()` aborts (untokenizable command, or indexing
`args[0]` of an empty token list); `errorReported` is the outcome claim C5
describes — an error value returned to the caller — which the code, whose
activation path returns unit, can never produce. -/
inductive ActivationOutcome where
  | errorReported
  | spawned (program : String) (args : List String)
  | panicked
deriving DecidableEq

/-- `SearchResult::activate` for `ProgramResult` (program.rs lines
287-293): sanitize the stored command with `format_exec`, tokenize with
`shell_words::split(..).unwrap()` (panic on `Err`), then spawn `args[0]`
(panic when no words) with the remaining words. -/
def ProgramResult.activate (r : ProgramResult) : ActivationOutcome :=
  match shell_words_split (format_exec r.exec) with
  | none => ActivationOutcome.panicked
  | some [] => ActivationOutcome.panicked
  | some (prog :: rest) => ActivationOutcome.spawned prog rest

/-! ## Concrete inputs used by the claim theorems -/

/-- A desktop file that declares an action `open` but has no
`Desktop Action open` section, so the action's `Exec` is missing. -/
def malformedActionFile : DesktopFile :=
  ⟨[("Desktop Entry", [("Name", "Bad"), ("Exec", "bad-app"), ("Actions", "open")])]⟩

/-- A well-formed minimal desktop file. -/
def goodFile : DesktopFile :=
  ⟨[("Desktop Entry", [("Name", "Good"), ("Exec", "good-app")])]⟩

/-- A desktop file hidden by `NoDisplay=true`. -/
def hiddenFile : DesktopFile :=
  ⟨[("Desktop Entry", [("Name", "Hidden App"), ("Exec", "hidden-app"),
      ("NoDisplay", "true")])]⟩

/-- A plain visible desktop file. -/
def normalFile : DesktopFile :=
  ⟨[("Desktop Entry", [("Name", "Normal App"), ("Exec", "normal-app")])]⟩

/-- The result that discovery constructs from `normalFile` (note the empty
category: `choose_category none = ""`). -/
def normalResult : ProgramResult :=
  { name := "Normal App", category := "", description := "", icon := none,
    version := none, exec := "normal-app", actions := none }

/-- A desktop file whose `Exec` attribute is present but empty. -/
def emptyExecFile : DesktopFile :=
  ⟨[("Desktop Entry", [("Name", "E"), ("Exec", "")])]⟩

/-- The result discovery constructs from `emptyExecFile`: its exec string
is empty. -/
def emptyExecResult : ProgramResult :=
  { name := "E", category := "", description := "", icon := none,
    version := none, exec := "", actions := none }

/-- A desktop file with no `Exec` attribute at all. -/
def noExecFile : DesktopFile :=
  ⟨[("Desktop Entry", [("Name", "NE")])]⟩

/-- A desktop file with `NoDisplay=False` (capital F, not the exact string
`"false"`). -/
def falseCapitalFile : DesktopFile :=
  ⟨[("Desktop Entry", [("Name", "FC"), ("Exec", "fc"), ("NoDisplay", "False")])]⟩

/-- A result whose stored command is a single unterminated double quote, so
tokenization fails. -/
def unterminatedQuoteResult : ProgramResult :=
  { name := "Q", category := "APPLICATION", description := "", icon := none,
    version := none, exec := "\"", actions := none }

/-! ## Helper lemmas -/

theorem toNat_max_sub (p : Nat) : (max (10 - (p : Int)) 0).toNat = 10 - p := by
  rcases le_or_lt (p : Int) 10 with h | h
  · rw [max_eq_left (by omega)]
    omega
  · rw [max_eq_right (by omega)]
    omega

theorem rank_foldl_spec (lname : List Char) (qs : List Char) :
    ∀ score ind : Nat,
      (qs.foldl (rankStep lname) (score, ind)).1 = score + specRank lname ind qs := by
  induction qs with
  | nil => intro score ind; simp [specRank]
  | cons q qs ih =>
    intro score ind
    simp only [List.foldl, specRank]
    cases h : (lname.drop ind).findIdx? (fun c => c == q) with
    | none => simp [rankStep, h, ih]
    | some p =>
      simp [rankStep, h, ih, toNat_max_sub]
      omega

theorem findAllLoop_nil (found : List ProgramResult) :
    findAllLoop [] found = some found := by
  conv_lhs => unfold findAllLoop

theorem findAllLoop_cons_file (nm : String) (c : Option DesktopFile)
    (rest : List FsNode) (found : List ProgramResult) :
    findAllLoop (FsNode.file nm c :: rest) found = findAllLoop rest found := by
  conv_lhs => unfold findAllLoop

theorem findAllLoop_cons_dir_some (n : String) (children : List FsNode)
    (rest : List FsNode) (found : List ProgramResult) :
    findAllLoop (FsNode.dir n (some children) :: rest) found =
      match processChildrenFiles children with
      | none => none
      | some rs =>
        findAllLoop ((children.filter FsNode.isDir).reverse ++ rest) (found ++ rs) := by
  conv_lhs => unfold findAllLoop

theorem buildActions_missing_exec (f : DesktopFile) (names : List String) (nm : String)
    (hmem : nm ∈ names)
    (hnone : getAttr f.sections (actionSectionName nm) "Exec" = none) :
    buildActions f names = none := by
  induction names with
  | nil => cases hmem
  | cons n rest ih =>
    rcases List.mem_cons.mp hmem with h | h
    · subst h
      simp only [buildActions, hnone]
    · cases h1 : getAttr f.sections (actionSectionName n) "Exec" with
      | none => simp only [buildActions, h1]
      | some e => simp only [buildActions, h1, ih h]

theorem processFile_result (f : DesktopFile) (r : ProgramResult)
    (h : processFile f = some (some r)) :
    showFlag f = true ∧ entryAttr f "Exec" ≠ none := by
  have hbr : ∃ acts, buildResult f acts = some r := by
    simp only [processFile] at h
    cases hif : (if (actionNames f).length > 0
        then (buildActions f (actionNames f)).map some else some none) with
    | none =>
      rw [hif] at h
      simp at h
    | some acts =>
      rw [hif] at h
      simp only [Option.some.injEq] at h
      exact ⟨acts, h⟩
  obtain ⟨acts, hbr⟩ := hbr
  unfold buildResult at hbr
  cases he : entryAttr f "Exec" with
  | none =>
    simp only [he] at hbr
    simp at hbr
  | some e =>
    simp only [he] at hbr
    cases hs : showFlag f with
    | false => simp [hs] at hbr
    | true => exact ⟨rfl, by simp [he]⟩

/-! ## Claim theorems -/

/-- C1 counterexample: `get_ranking "chrome" "cr"` is 19, not the 18 the
claim states: after matching 'c' the cursor is 1, and 'r' sits at relative
offset 1 (absolute index 2 of "chrome"), contributing `max(10 - 1, 0) = 9`,
not 8. -/
theorem get_ranking_chrome_cr_ne_18 : get_ranking "chrome" "cr" ≠ 18 := by decide

/-- C1 (amended): `get_ranking` equals the reference greedy-subsequence
score of the spec (normalize the name, then for each query character match
greedily from the cursor, scoring `max(10 - p, 0)` per hit), and in
particular `get_ranking "chrome" "ch" = 20` and
`get_ranking "chrome" "cr" = 19`. -/
theorem get_ranking_matches_reference :
    (∀ name query : String, get_ranking name query = get_ranking_spec name query) ∧
    get_ranking "chrome" "ch" = 20 ∧ get_ranking "chrome" "cr" = 19 := by
  refine ⟨fun name query => ?_, by decide, by decide⟩
  unfold get_ranking get_ranking_spec
  simpa using rank_foldl_spec _ query.data 0 0

/-- C2 counterexample: `choose_category none` is the empty string, not
`"APPLICATION"`: splitting the empty string on ';' yields one empty token,
which survives the exclusion filter and is chosen ahead of the default. -/
theorem choose_category_none_ne_application :
    choose_category none ≠ "APPLICATION" := by decide

/-- C2 (amended): `choose_category none = ""` (so the result can be empty),
and the literal default `"Application"`, case-normalized to
`"APPLICATION"`, is used exactly when no token survives the exclusion
filter. -/
theorem choose_category_default_amended :
    choose_category none = "" ∧
    ∀ raw : String,
      (splitOnChar ';' raw.data).filter
        (fun s => !(EXCLUDED_CATEGORIES.contains (String.mk (toUpperChars s)))) = [] →
      choose_category (some raw) = "APPLICATION" := by
  refine ⟨by decide, fun raw h => ?_⟩
  simp only [choose_category, Option.getD_some, h]
  decide

/-- Witness for C2 (amended): every token of `"GTK"` is excluded, and
`choose_category (some "GTK") = "APPLICATION"`. -/
theorem choose_category_default_amended_witness :
    choose_category (some "GTK") = "APPLICATION" :=
  choose_category_default_amended.2 "GTK" (by decide)

/-- C3 counterexample: `format_exec` does not remove the `%D` placeholder:
`format_exec "%D"` is `"~"`, not the empty string the claim predicts. -/
theorem format_exec_percent_D_not_removed :
    format_exec "%D" ≠ "" := by decide

/-- C3 (amended): `format_exec` applies the five placeholder substitutions
in sequence — `%f`, `%F`, `%u`, `%U` are removed but each `%D` is replaced
by `"~"` — and in particular
`format_exec "app %f --flag %U" = "app  --flag "` and
`format_exec "%D" = "~"`. -/
theorem format_exec_substitution_pipeline :
    (∀ s : String, format_exec s = formatExecSeq s) ∧
    format_exec "app %f --flag %U" = "app  --flag " ∧
    format_exec "%D" = "~" := by
  refine ⟨fun s => rfl, by decide, by decide⟩

/-- C4: the claim says a malformed declared action only skips that one
file, but the source unwraps the missing action `Exec` and the panic aborts
the entire scan: a directory with one good entry and one entry whose listed
action has no `Exec` yields no results at all (modelled by `none`), not the
good entry's result. -/
theorem find_all_aborts_on_malformed_action :
    find_all [FsNode.dir "applications" (some
      [FsNode.file "good.desktop" (some goodFile),
       FsNode.file "bad.desktop" (some malformedActionFile)])] = none := by
  have h1 : processChildrenFiles
      [FsNode.file "good.desktop" (some goodFile),
       FsNode.file "bad.desktop" (some malformedActionFile)] = none := rfl
  have e1 : find_all [FsNode.dir "applications" (some
      [FsNode.file "good.desktop" (some goodFile),
       FsNode.file "bad.desktop" (some malformedActionFile)])] =
    findAllLoop [FsNode.dir "applications" (some
      [FsNode.file "good.desktop" (some goodFile),
       FsNode.file "bad.desktop" (some malformedActionFile)])] [] := rfl
  rw [e1, findAllLoop_cons_dir_some, h1]

/-- C5 counterexample: on a result whose sanitized command is a lone double
quote, tokenization fails and `activate` panics (the source unwraps the
`Err`); no activation error is reported to the caller. -/
theorem activation_failure_panics_counterexample :
    shell_words_split (format_exec unterminatedQuoteResult.exec) = none ∧
    unterminatedQuoteResult.activate = ActivationOutcome.panicked ∧
    unterminatedQuoteResult.activate ≠ ActivationOutcome.errorReported := by
  refine ⟨rfl, rfl, by decide⟩

/-- C5 (amended): when the sanitized command string cannot be tokenized,
`activate` panics (aborts via `.unwrap()`) instead of reporting an
activation error — the activation path has no error channel at all. -/
theorem activation_tokenization_failure_panics :
    ∀ r : ProgramResult, shell_words_split (format_exec r.exec) = none →
      r.activate = ActivationOutcome.panicked := by
  intro r h
  unfold ProgramResult.activate
  rw [h]

/-- Witness for C5 (amended): the unterminated-quote command cannot be
tokenized, and activating it panics. -/
theorem activation_tokenization_failure_panics_witness :
    unterminatedQuoteResult.activate = ActivationOutcome.panicked :=
  activation_tokenization_failure_panics unterminatedQuoteResult rfl

/-- C6: a file that lists an action identifier whose sub-section has no
`Exec` key makes per-file processing fail loudly (the modelled panic,
`none`) — in particular discovery never constructs a ProgramResult for that
file, so no action with a fabricated or missing launch command ever
reaches a result. -/
theorem missing_action_exec_is_loud :
    ∀ (f : DesktopFile) (nm : String), nm ∈ actionNames f →
      getAttr f.sections (actionSectionName nm) "Exec" = none →
      processFile f = none := by
  intro f nm hmem hnone
  have hlen : (actionNames f).length > 0 :=
    List.length_pos.mpr (by rintro h; rw [h] at hmem; cases hmem)
  have hb : buildActions f (actionNames f) = none :=
    buildActions_missing_exec f _ nm hmem hnone
  simp only [processFile]
  rw [if_pos hlen, hb]
  rfl

/-- Witness for C6: `malformedActionFile` lists the action `open`, whose
sub-section has no `Exec`, and processing the file fails loudly. -/
theorem missing_action_exec_is_loud_witness :
    "open" ∈ actionNames malformedActionFile ∧
    getAttr malformedActionFile.sections (actionSectionName "open") "Exec" = none ∧
    processFile malformedActionFile = none :=
  ⟨by decide, by decide,
    missing_action_exec_is_loud malformedActionFile "open" (by decide) (by decide)⟩

/-- C7: an entry with `NoDisplay=true` or `Hidden=true` never yields a
ProgramResult, and a directory holding one `NoDisplay=true` file and one
normal entry yields exactly one ProgramResult, the normal entry's. -/
theorem hidden_entries_yield_no_result :
    (∀ f : DesktopFile,
        entryAttr f "NoDisplay" = some "true" ∨ entryAttr f "Hidden" = some "true" →
        ∀ r : ProgramResult, processFile f ≠ some (some r)) ∧
    find_all [FsNode.dir "applications" (some
        [FsNode.file "hidden.desktop" (some hiddenFile),
         FsNode.file "normal.desktop" (some normalFile)])] = some [normalResult] := by
  constructor
  · intro f hflag r hr
    have hs := (processFile_result f r hr).1
    unfold showFlag at hs
    rw [Bool.and_eq_true] at hs
    rcases hflag with h | h
    · rw [h, Option.getD_some] at hs
      exact absurd (eq_of_beq hs.1) (by decide)
    · rw [h, Option.getD_some] at hs
      exact absurd (eq_of_beq hs.2) (by decide)
  · have h1 : processChildrenFiles
        [FsNode.file "hidden.desktop" (some hiddenFile),
         FsNode.file "normal.desktop" (some normalFile)] = some [normalResult] := rfl
    have e1 : find_all [FsNode.dir "applications" (some
        [FsNode.file "hidden.desktop" (some hiddenFile),
         FsNode.file "normal.desktop" (some normalFile)])] =
      findAllLoop [FsNode.dir "applications" (some
        [FsNode.file "hidden.desktop" (some hiddenFile),
         FsNode.file "normal.desktop" (some normalFile)])] [] := rfl
    rw [e1, findAllLoop_cons_dir_some, h1]
    show findAllLoop [] [normalResult] = some [normalResult]
    exact findAllLoop_nil _

/-- Witness for C7: `hiddenFile` has `NoDisplay=true` and yields no
result. -/
theorem hidden_entries_yield_no_result_witness :
    processFile hiddenFile ≠ some (some normalResult) :=
  hidden_entries_yield_no_result.1 hiddenFile (Or.inl (by decide)) normalResult

/-- C8 counterexample: an entry with a present-but-empty `Exec` value is
not excluded — discovery constructs a ProgramResult whose exec string is
empty, refuting the invariant that every constructed result has a
non-empty exec. -/
theorem empty_exec_value_reaches_results :
    (find_all [FsNode.dir "applications" (some
        [FsNode.file "e.desktop" (some emptyExecFile)])]).map
      (fun l => l.map ProgramResult.exec) = some [""] := by
  have h1 : processChildrenFiles [FsNode.file "e.desktop" (some emptyExecFile)] =
      some [emptyExecResult] := rfl
  have e1 : find_all [FsNode.dir "applications" (some
      [FsNode.file "e.desktop" (some emptyExecFile)])] =
    findAllLoop [FsNode.dir "applications" (some
      [FsNode.file "e.desktop" (some emptyExecFile)])] [] := rfl
  rw [e1, findAllLoop_cons_dir_some, h1]
  show (findAllLoop [] [emptyExecResult]).map
    (fun l => l.map ProgramResult.exec) = some [""]
  rw [findAllLoop_nil]
  rfl

/-- C8 (amended): an entry file whose primary section lacks an `Exec` key
never produces a ProgramResult (it is skipped — or, when it also declares a
malformed action, the scan panics first — but in no case does a result
enter the collection); an `Exec` key that is present but empty, however, is
not excluded, so a constructed result's exec string can be empty. -/
theorem missing_exec_produces_no_result :
    ∀ f : DesktopFile, entryAttr f "Exec" = none →
      ∀ r : ProgramResult, processFile f ≠ some (some r) := by
  intro f h r hr
  exact (processFile_result f r hr).2 h

/-- Witness for C8 (amended): `noExecFile` has no `Exec` attribute and
yields no result. -/
theorem missing_exec_produces_no_result_witness :
    processFile noExecFile ≠ some (some normalResult) :=
  missing_exec_produces_no_result noExecFile (by decide) normalResult

/-- C9: `choose_category` follows the claimed pipeline — split the raw
string (empty when absent) on ';', drop tokens whose uppercased form is in
the fixed 10-entry exclusion set, take the first survivor (default
`"Application"`), title-case it, uppercase the result — and in particular
`choose_category (some "Utility;GTK;Office") = "UTILITY"`. -/
theorem choose_category_follows_spec :
    (∀ raw : Option String, choose_category raw = chooseCategorySpec raw) ∧
    choose_category (some "Utility;GTK;Office") = "UTILITY" := by
  constructor
  · intro raw
    simp only [choose_category, chooseCategorySpec]
    cases h : (splitOnChar ';' (raw.getD "").data).filter
        (fun s => !(EXCLUDED_CATEGORIES.contains (String.mk (toUpperChars s)))) with
    | nil => simp [h]
    | cons a l => simp [h]
  · decide

/-- C10: an entry is shown only when `NoDisplay` and `Hidden` are each
absent or exactly the string `"false"`; any other value (such as `"False"`
or `"0"`) makes the entry produce no ProgramResult. -/
theorem nondisplay_requires_exact_false :
    ∀ f : DesktopFile,
      ((entryAttr f "NoDisplay" ≠ none ∧ entryAttr f "NoDisplay" ≠ some "false") ∨
       (entryAttr f "Hidden" ≠ none ∧ entryAttr f "Hidden" ≠ some "false")) →
      ∀ r : ProgramResult, processFile f ≠ some (some r) := by
  intro f hflag r hr
  have hs := (processFile_result f r hr).1
  unfold showFlag at hs
  rw [Bool.and_eq_true] at hs
  rcases hflag with ⟨h1, h2⟩ | ⟨h1, h2⟩
  · cases hnd : entryAttr f "NoDisplay" with
    | none => exact h1 hnd
    | some v =>
      have hA := hs.1
      rw [hnd, Option.getD_some] at hA
      exact h2 (by rw [hnd, eq_of_beq hA])
  · cases hnd : entryAttr f "Hidden" with
    | none => exact h1 hnd
    | some v =>
      have hB := hs.2
      rw [hnd, Option.getD_some] at hB
      exact h2 (by rw [hnd, eq_of_beq hB])

/-- Witness for C10: `NoDisplay=False` (capital F) is neither absent nor
exactly `"false"`, and the file yields no result. -/
theorem nondisplay_requires_exact_false_witness :
    processFile falseCapitalFile ≠ some (some normalResult) :=
  nondisplay_requires_exact_false falseCapitalFile
    (Or.inl ⟨by decide, by decide⟩) normalResult

end Scout
